import Mathlib

/-!
Verification of the KelvinBot supervised event/command bus core.

Shallow embedding of the Rust sources under `src/`:
  * `src/core/service.rs`  — `ServiceId`
  * `src/core/event.rs`    — `User`, `Event`, `EventKind`
  * `src/core/bus.rs`      — `Command`, the event-dispatch loop of `Bus::run`,
                             and the per-service supervision step
  * `src/core/config.rs`   — `ExponentialBackoff::next_delay`
  * `src/middlewares/chat_relay.rs`       — `ChatRelay::on_event`
  * `src/middlewares/attendance_relay.rs` — session state machine
  * `src/middlewares/invite.rs`           — `Invite::on_event`

Machine floats of the backoff computation are modelled over `ℚ` (the
computation is a product/min/max chain, exact over the rationals); `Instant`
and `DateTime<Utc>` are modelled as second counters (`Nat`); tokio oneshot
reply channels are modelled by a `Bool` flag on commands recording whether a
reply channel is attached, and an awaited reply is an explicit
`Option String` input of the step that awaits it.
-/

namespace KelvinBot

/-- `src/core/service.rs`: `pub struct ServiceId(pub String)`. -/
structure ServiceId where
  id : String
deriving DecidableEq, Repr

/-- `src/core/event.rs`: `pub struct User`. -/
structure User where
  id : String
  username : String
  display_name : String
  is_active : Bool
  is_self : Bool
deriving DecidableEq, Repr

/-- `src/core/event.rs`: `pub enum EventKind`. -/
inductive EventKind where
  | DirectMessage (user_id : String) (body : String) (is_local_user : Bool)
      (sender_id : String) (sender_display_name : Option String) (is_self : Bool)
  | RoomMessage (room_id : String) (body : String) (is_local_user : Bool)
      (sender_id : String) (sender_display_name : Option String) (is_self : Bool)
  | UserListUpdate (users : List User)
  | ServiceDisconnected (reason : String) (attempt : Nat)
  | ServiceReconnecting (attempt : Nat) (delay_secs : Nat)
  | ServiceReconnected (downtime_secs : Nat) (total_attempts : Nat)
deriving DecidableEq, Repr

/-- `src/core/event.rs`: `pub struct Event`. -/
structure Event where
  service_id : ServiceId
  kind : EventKind
deriving DecidableEq, Repr

/-- `src/core/bus.rs`: `pub enum Command`.  A tokio `oneshot::Sender` reply
channel is not data; `has_reply` records whether `response_tx` is `Some`.
`GenerateInviteToken` always carries a reply channel in the source,
so it has no flag.  `expiry : Option Nat` is the duration in seconds. -/
inductive Command where
  | SendDirectMessage (service_id : ServiceId) (user_id : String) (body : String)
      (has_reply : Bool)
  | SendRoomMessage (service_id : ServiceId) (room_id : String) (body : String)
      (markdown_body : Option String) (has_reply : Bool)
  | EditMessage (service_id : ServiceId) (message_id : String) (new_body : String)
      (new_markdown_body : Option String)
  | GenerateInviteToken (service_id : ServiceId) (user_id : String)
      (uses_allowed : Option Nat) (expiry : Option Nat)
deriving DecidableEq, Repr

/-- `src/core/middleware.rs`: `pub enum Verdict`. -/
inductive Verdict where
  | Continue
  | Stop
deriving DecidableEq, Repr

/-! ## Bus event dispatch (`src/core/bus.rs`, `Bus::run`, lines 266-281)

A middleware of a pipeline is modelled by its `on_event` function
(`fn on_event(&self, event: &Event) -> Result<Verdict>`; `anyhow::Result`
becomes `Except String`) together with a `Nat` identity standing for the
`Arc` pointer used by `Arc::ptr_eq` deduplication. -/

/-- A `dyn Middleware` as the bus sees it: `Arc` identity plus `on_event`. -/
structure MW where
  ident : Nat
  on_event : Event → Except String Verdict

/-- The `for mw in pipeline` loop of `Bus::run`: invoke `on_event` in list
order; `break` at the first `Stop`; the `?` operator aborts on the first
`Err`.  Returns the identities invoked (in order) and the outcome of the
loop (`Except.error e` is the error propagated out of `Bus::run` by `?`). -/
def dispatchPipeline (e : Event) : List MW → List Nat × Except String Unit
  | [] => ([], Except.ok ())
  | mw :: rest =>
    match mw.on_event e with
    | Except.error err => ([mw.ident], Except.error err)
    | Except.ok Verdict.Stop => ([mw.ident], Except.ok ())
    | Except.ok Verdict.Continue =>
      let r := dispatchPipeline e rest
      (mw.ident :: r.1, r.2)

/-- The event arm of the `tokio::select!` in `Bus::run`: look the pipeline up
by `evt.service_id`; if absent the event is dropped (debug trace only). -/
def busDispatchEvent (service_middlewares : ServiceId → Option (List MW))
    (e : Event) : List Nat × Except String Unit :=
  match service_middlewares e.service_id with
  | some pipeline => dispatchPipeline e pipeline
  | none => ([], Except.ok ())

/-- The bus event loop restricted to a finite trace of received events:
each event is dispatched in arrival order; an `Err` from a pipeline is
propagated by `?` out of `Bus::run`, so later events are never dispatched.
Returns the per-event invocation lists together with the loop outcome. -/
def busRunEvents (service_middlewares : ServiceId → Option (List MW)) :
    List Event → List (List Nat) × Except String Unit
  | [] => ([], Except.ok ())
  | e :: rest =>
    let r := busDispatchEvent service_middlewares e
    match r.2 with
    | Except.error err => ([r.1], Except.error err)
    | Except.ok _ =>
      let tl := busRunEvents service_middlewares rest
      (r.1 :: tl.1, tl.2)

/-- `true` iff `on_event` returns `Ok(Verdict::Stop)` on `e`. -/
def stopsOn (e : Event) (mw : MW) : Bool :=
  match mw.on_event e with
  | Except.ok Verdict.Stop => true
  | _ => false

/-! ## Exponential backoff (`src/core/config.rs`, lines 104-175)

Durations and the `f64` arithmetic of `next_delay` are modelled over `ℚ`,
in seconds.  The computation is a chain of `*`, `^`, `min`, `max`, exact
over `ℚ`.  The uniform sample `rng.gen_range(-jitter_factor..=jitter_factor)`
is an explicit input `jitterSample`. -/

/-- `src/core/config.rs`: `pub struct ReconnectionConfig` (seconds, over ℚ). -/
structure ReconnectionConfig where
  initial_delay : ℚ
  max_delay : ℚ
  multiplier : ℚ
  jitter_factor : ℚ
deriving DecidableEq, Repr

/-- Defaults `(1s, 60s, 2.0, 0.1)` from `src/core/config.rs`. -/
def ReconnectionConfig.default : ReconnectionConfig :=
  { initial_delay := 1, max_delay := 60, multiplier := 2, jitter_factor := 1/10 }

/-- `src/core/config.rs`: `pub struct ExponentialBackoff`. -/
structure ExponentialBackoff where
  config : ReconnectionConfig
  attempt : Nat
deriving DecidableEq, Repr

/-- `ExponentialBackoff::new`. -/
def ExponentialBackoff.new (config : ReconnectionConfig) : ExponentialBackoff :=
  { config := config, attempt := 0 }

/-- `ExponentialBackoff::next_delay` (`src/core/config.rs`, lines 155-170).
`jitterSample` is the value drawn by `rng.gen_range(-jf..=jf)`.  Returns the
delay in seconds and the mutated backoff (`self.attempt += 1`). -/
def ExponentialBackoff.next_delay (b : ExponentialBackoff) (jitterSample : ℚ) :
    ℚ × ExponentialBackoff :=
  let base_delay_secs := b.config.initial_delay * b.config.multiplier ^ b.attempt
  let capped_delay_secs := min base_delay_secs b.config.max_delay
  let jitter := 1 + jitterSample
  let final_delay_secs := capped_delay_secs * jitter
  (max final_delay_secs 0, { b with attempt := b.attempt + 1 })

/-- `ExponentialBackoff::reset`. -/
def ExponentialBackoff.reset (b : ExponentialBackoff) : ExponentialBackoff :=
  { b with attempt := 0 }

/-! ## Supervision step (`src/core/bus.rs`, `Bus::run`, lines 180-258)

The handling of one completed service task.  `Instant::elapsed` is the
input `elapsedSecs` (seconds since `connection_start`); the two cancellation
observations (`cancel.is_cancelled()` at exit, and the `select!` outcome
during the backoff sleep) are explicit `Bool` inputs. -/

/-- The per-service supervision state the bus keeps: the `attempt_counters`
entry (`.copied().unwrap_or(0)` already applied) and the `attempt` field of
the service's `ExponentialBackoff`. -/
structure SupervisionState where
  attemptCount : Nat
  backoffAttempt : Nat
deriving DecidableEq, Repr

/-- Result of one supervision step: the new counters and whether the service
was restarted. -/
structure SupervisionResult where
  state : SupervisionState
  restarted : Bool
deriving DecidableEq, Repr

/-- One pass of the completed-service handling in `Bus::run`
(lines 180-258), for a single service.  Mirrors the source exactly:
* line 187: `attempt_count` is read once into a local;
* lines 192-207: if `elapsed > 30s` and `attempt_count > 0`, the backoff is
  reset and `0` is stored in `attempt_counters`;
* lines 209-211: `new_attempt = attempt_count + 1` uses the local read at
  line 187 (not the stored `0`) and overwrites the counter;
* line 220: `backoff.next_delay()` increments the backoff attempt;
* lines 234-243: the `select!` over cancellation and the sleep; on
  cancellation the loop `continue`s without restarting. -/
def superviseServiceExit (st : SupervisionState) (elapsedSecs : Nat)
    (cancelledAtExit cancelledDuringSleep : Bool) : SupervisionResult :=
  if cancelledAtExit then
    { state := st, restarted := false }
  else
    let attempt_count := st.attemptCount
    let was_long_running := decide (30 < elapsedSecs)
    let st1 :=
      if was_long_running && decide (0 < attempt_count) then
        { attemptCount := 0, backoffAttempt := 0 }
      else st
    let new_attempt := attempt_count + 1
    let st2 := { st1 with attemptCount := new_attempt }
    let st3 := { st2 with backoffAttempt := st2.backoffAttempt + 1 }
    if cancelledDuringSleep then
      { state := st3, restarted := false }
    else
      { state := st3, restarted := true }

/-! ## Middleware startup deduplication (`src/core/bus.rs`, lines 144-163)

Middleware instances are `Arc<dyn Middleware>`; `Arc::ptr_eq` identity is
modelled by a `Nat` per instance.  The nested `for` loops over
`self.service_middlewares.values()` walk the pipelines and spawn `run` for
each instance not yet in `started_middlewares`. -/

/-- The inner `for middleware in pipeline` loop: extend the
`started_middlewares` list (which is also the order in which `run` tasks are
spawned) with the instances of one pipeline not already started. -/
def startPipeline (started : List Nat) (pipeline : List Nat) : List Nat :=
  pipeline.foldl
    (fun started middleware =>
      if middleware ∈ started then started else started ++ [middleware])
    started

/-- The outer loop over all pipelines: the resulting list of middleware
instances whose `run` was spawned, in spawn order. -/
def startMiddlewares (pipelines : List (List Nat)) : List Nat :=
  pipelines.foldl startPipeline []

/-! ## Chat relay (`src/middlewares/chat_relay.rs`) -/

/-- `src/middlewares/chat_relay.rs`: the configuration fields stored on
`ChatRelay` (the `cmd_tx` channel is the emitted-command list). -/
structure ChatRelayConfig where
  source_service_id : String
  source_room_id : Option String
  dest_service_id : String
  dest_room_id : String
  prefix_tag : String
deriving DecidableEq, Repr

/-- `ChatRelay::format_relayed_message`. -/
def format_relayed_message (prefix_tag : String) (sender_id : String)
    (sender_display_name : Option String) (body : String) : String :=
  let sender_display := sender_display_name.getD sender_id
  "[" ++ prefix_tag ++ "] " ++ sender_display ++ ": " ++ body

/-- The `if let Some(ref expected_room) = self.source_room_id && room_id !=
expected_room` filter of `ChatRelay::on_event`. -/
def roomMismatch (source_room_id : Option String) (room_id : String) : Bool :=
  match source_room_id with
  | some expected_room => room_id ≠ expected_room
  | none => false

/-- `ChatRelay::on_event` (`src/middlewares/chat_relay.rs`, lines 70-129):
the verdict returned and the commands sent on `cmd_tx` (by the spawned
task).  Early `return Ok(Verdict::Continue)` filters become nested branches. -/
def chatRelayOnEvent (cfg : ChatRelayConfig) (event : Event) :
    Verdict × List Command :=
  if event.service_id.id ≠ cfg.source_service_id then
    (Verdict.Continue, [])
  else
    match event.kind with
    | EventKind.RoomMessage room_id body _ sender_id sender_display_name is_self =>
      if roomMismatch cfg.source_room_id room_id then
        (Verdict.Continue, [])
      else if is_self then
        (Verdict.Continue, [])
      else
        let formatted_body :=
          format_relayed_message cfg.prefix_tag sender_id sender_display_name body
        (Verdict.Continue,
          [Command.SendRoomMessage ⟨cfg.dest_service_id⟩ cfg.dest_room_id
            formatted_body (some formatted_body) false])
    | _ => (Verdict.Continue, [])

/-- Spec-side restatement of the chat-relay contract, following the claim's
words: a `SendRoomMessage` to the destination is emitted iff the event is a
`RoomMessage` from the configured source service, matching the configured
source room when one is set, with `is_self = false`; otherwise nothing. -/
def chatRelaySpecCommands (cfg : ChatRelayConfig) (event : Event) :
    List Command :=
  match event.kind with
  | EventKind.RoomMessage room_id body _ sender_id sender_display_name is_self =>
    if event.service_id.id = cfg.source_service_id
        ∧ roomMismatch cfg.source_room_id room_id = false
        ∧ is_self = false then
      let formatted_body :=
        format_relayed_message cfg.prefix_tag sender_id sender_display_name body
      [Command.SendRoomMessage ⟨cfg.dest_service_id⟩ cfg.dest_room_id
        formatted_body (some formatted_body) false]
    else []
  | _ => []

/-! ## Attendance relay (`src/middlewares/attendance_relay.rs`)

`HashSet<String>` becomes `Finset String`; `DateTime<Utc>` becomes seconds
since epoch (`Nat`).  The oneshot reply awaited after the initial
`SendRoomMessage` is the input `sendResult : Option String`
(`Ok(Ok(message_id))` ↦ `some message_id`; the two failure arms, which only
log, ↦ `none`). -/

/-- `src/middlewares/attendance_relay.rs`: `struct SessionState`. -/
structure SessionState where
  is_session_active : Bool
  active_participants : Finset String
  all_participants : Finset String
  session_start_time : Option Nat
  live_message_id : Option String
deriving DecidableEq

/-- `SessionState::new`. -/
def SessionState.new : SessionState :=
  { is_session_active := false
    active_participants := ∅
    all_participants := ∅
    session_start_time := none
    live_message_id := none }

/-- `src/middlewares/attendance_relay.rs`: `struct DestinationConfig`. -/
structure DestinationConfig where
  service_id : ServiceId
  room_id : String
deriving DecidableEq, Repr

/-- `src/middlewares/attendance_relay.rs`: `struct MessageTemplates`. -/
structure MessageTemplates where
  session_start : String
  session_end : String
  session_ended_edit : String
deriving DecidableEq, Repr

/-- `format_live_message` (`src/middlewares/attendance_relay.rs`,
lines 383-394): sort the participants, prefix each with `"- "`, join with
newlines; an empty set renders as `"No active participants"`. -/
def format_live_message (pfx : String) (participants : Finset String) : String :=
  let sorted := participants.sort (· ≤ ·)
  let participant_list :=
    if sorted.isEmpty then "No active participants"
    else String.intercalate "\n" (sorted.map (fun s => "- " ++ s))
  pfx ++ "\n\n" ++ participant_list

/-- `format_session_summary` (`src/middlewares/attendance_relay.rs`,
lines 396-419).  `duration` is in seconds. -/
def format_session_summary (end_message : String) (all_participants : List String)
    (duration : Nat) : String :=
  let sorted := all_participants.mergeSort (· ≤ ·)
  let hours := duration / 3600
  let minutes := duration / 60 % 60
  let seconds := duration % 60
  let duration_str :=
    if 0 < hours then
      toString hours ++ "h " ++ toString minutes ++ "m " ++ toString seconds ++ "s"
    else if 0 < minutes then
      toString minutes ++ "m " ++ toString seconds ++ "s"
    else
      toString seconds ++ "s"
  let participant_list := String.intercalate "\n" (sorted.map (fun s => "- " ++ s))
  end_message ++ "\n\nDuration: " ++ duration_str ++ "\n\nParticipants:\n"
    ++ participant_list

/-- `handle_session_start` (lines 216-261).  Sends the initial roster with a
reply channel; `sendResult` is the awaited reply: on `some id`,
`live_message_id := some id`, otherwise the state is left as set. -/
def handle_session_start (state : SessionState) (current_active : Finset String)
    (destination : DestinationConfig) (session_start_message : String)
    (now : Nat) (sendResult : Option String) : SessionState × List Command :=
  let st1 := { state with
    is_session_active := true
    session_start_time := some now
    active_participants := current_active
    all_participants := current_active }
  let body := format_live_message session_start_message st1.active_participants
  let command := Command.SendRoomMessage destination.service_id
    destination.room_id body (some body) true
  let st2 :=
    match sendResult with
    | some message_id => { st1 with live_message_id := some message_id }
    | none => st1
  (st2, [command])

/-- `handle_session_update` (lines 263-327).  `all_participants` grows by
union; if a live message id exists the roster is edited, otherwise the
initial send is retried (documented compensation for a failed first send),
and its reply may set `live_message_id`. -/
def handle_session_update (state : SessionState) (current_active : Finset String)
    (destination : DestinationConfig) (session_start_message : String)
    (sendResult : Option String) : SessionState × List Command :=
  let st1 := { state with
    all_participants := state.all_participants ∪ current_active
    active_participants := current_active }
  match st1.live_message_id with
  | some message_id =>
    let body := format_live_message session_start_message st1.active_participants
    (st1, [Command.EditMessage destination.service_id message_id body (some body)])
  | none =>
    let body := format_live_message session_start_message st1.active_participants
    let command := Command.SendRoomMessage destination.service_id
      destination.room_id body (some body) true
    let st2 :=
      match sendResult with
      | some message_id => { st1 with live_message_id := some message_id }
      | none => st1
    (st2, [command])

/-- `handle_session_end` (lines 329-381): edit the live message to the
configured ended text (when one exists), send the summary, reset all state. -/
def handle_session_end (state : SessionState) (destination : DestinationConfig)
    (session_end_message session_ended_edit_message : String) (now : Nat) :
    SessionState × List Command :=
  let duration :=
    match state.session_start_time with
    | some start => now - start
    | none => 0
  let all_participants := state.all_participants.sort (· ≤ ·)
  let editCommands :=
    match state.live_message_id with
    | some message_id =>
      [Command.EditMessage destination.service_id message_id
        session_ended_edit_message (some session_ended_edit_message)]
    | none => []
  let summary_body :=
    format_session_summary session_end_message all_participants duration
  let commands := editCommands ++
    [Command.SendRoomMessage destination.service_id destination.room_id
      summary_body (some summary_body) false]
  (SessionState.new, commands)

/-- `handle_user_list_change` (lines 164-214): dispatch on
`(was_active, now_active)`. -/
def handle_user_list_change (state : SessionState) (current_active : Finset String)
    (destination : DestinationConfig) (messages : MessageTemplates)
    (now : Nat) (sendResult : Option String) : SessionState × List Command :=
  let was_active := state.is_session_active
  let now_active := decide (current_active ≠ ∅)
  match was_active, now_active with
  | false, true =>
    handle_session_start state current_active destination messages.session_start
      now sendResult
  | true, true =>
    handle_session_update state current_active destination messages.session_start
      sendResult
  | true, false =>
    handle_session_end state destination messages.session_end
      messages.session_ended_edit now
  | false, false => (state, [])

/-- `src/middlewares/attendance_relay.rs`: the configuration fields stored
on `AttendanceRelay`. -/
structure AttendanceRelayConfig where
  source_service_id : String
  source_room_id : Option String
  dest_service_id : String
  dest_room_id : String
  session_start_message : String
  session_end_message : String
  session_ended_edit_message : String
deriving DecidableEq, Repr

/-- The derived set of `AttendanceRelay::on_event` (lines 124-128):
`{ u.display_name | u ∈ users, ¬u.is_self, u.is_active }`. -/
def currentActiveOf (users : List User) : Finset String :=
  ((users.filter (fun u => !u.is_self && u.is_active)).map User.display_name).toFinset

/-- `AttendanceRelay::on_event` (lines 101-161) together with the state
transition of the spawned `handle_user_list_change` task (the task runs
under the instance mutex; its effect is this sequential transition).  The
`source_room_id` filter block (lines 112-121) is a no-op in the source —
the binding is only consumed by `let _ = expected_room_id`. -/
def attendanceRelayOnEvent (cfg : AttendanceRelayConfig) (state : SessionState)
    (event : Event) (now : Nat) (sendResult : Option String) :
    Verdict × SessionState × List Command :=
  if event.service_id.id ≠ cfg.source_service_id then
    (Verdict.Continue, state, [])
  else
    match event.kind with
    | EventKind.UserListUpdate users =>
      let current_active := currentActiveOf users
      let destination : DestinationConfig :=
        { service_id := ⟨cfg.dest_service_id⟩, room_id := cfg.dest_room_id }
      let messages : MessageTemplates :=
        { session_start := cfg.session_start_message
          session_end := cfg.session_end_message
          session_ended_edit := cfg.session_ended_edit_message }
      let r := handle_user_list_change state current_active destination messages
        now sendResult
      (Verdict.Continue, r.1, r.2)
    | _ => (Verdict.Continue, state, [])

/-! ## Invite middleware (`src/middlewares/invite.rs`)

This file is one of the repository's earlier bus iterations: its
`DirectMessage` match binds only `{ body, user_id, is_local_user }` and its
`SendDirectMessage` has no reply field; the extra fields of the richer core
vocabulary are ignored / absent (`has_reply := false`). -/

/-- Rust `str::trim`, modelled over the character list: strip leading and
trailing whitespace. -/
def strTrim (s : String) : String :=
  String.mk
    (((s.data.dropWhile Char.isWhitespace).reverse.dropWhile
      Char.isWhitespace).reverse)

/-- The rejection text of `Invite::on_event` (lines 56-61). -/
def inviteRejectionBody : String :=
  "Invite tokens can only be generated for users from this server."

/-- `Invite::on_event` (`src/middlewares/invite.rs`, lines 39-162): the
verdict and the commands handed to `cmd_tx` before any reply is awaited.
On the local-user path the spawned task sends `GenerateInviteToken` and
then, after awaiting the token reply, a further `SendDirectMessage`
reporting the token or the failure; that reply-dependent follow-up is
outside this step's command set. -/
def inviteOnEvent (command_string : String) (uses_allowed : Option Nat)
    (expiry : Option Nat) (evt : Event) : Verdict × List Command :=
  match evt.kind with
  | EventKind.UserListUpdate _ => (Verdict.Continue, [])
  | EventKind.RoomMessage _ _ _ _ _ _ => (Verdict.Continue, [])
  | EventKind.DirectMessage user_id body is_local_user _ _ _ =>
    if strTrim body = command_string then
      if !is_local_user then
        (Verdict.Continue,
          [Command.SendDirectMessage evt.service_id user_id inviteRejectionBody
            false])
      else
        (Verdict.Continue,
          [Command.GenerateInviteToken evt.service_id user_id uses_allowed expiry])
    else
      (Verdict.Continue, [])
  | _ => (Verdict.Continue, [])

/-! ## Theorems -/

/-- Pipeline dispatch characterization helper: when every middleware of the
pipeline returns `Ok` on `e`, the loop invokes exactly the prefix up to and
including the first middleware returning `Stop` (the whole pipeline when
none does), and no error escapes. -/
theorem dispatchPipeline_eq_take (e : Event) :
    ∀ pipeline : List MW, (∀ mw ∈ pipeline, (mw.on_event e).isOk = true) →
      dispatchPipeline e pipeline =
        ((pipeline.map MW.ident).take (pipeline.findIdx (stopsOn e) + 1),
          Except.ok ())
  | [], _ => by simp [dispatchPipeline]
  | mw :: rest, hok => by
    have hmw := hok mw (List.mem_cons_self _ _)
    cases h : mw.on_event e with
    | error err => rw [h] at hmw; simp [Except.isOk, Except.toBool] at hmw
    | ok v =>
      cases v with
      | Stop =>
        simp [dispatchPipeline, h, stopsOn, List.findIdx_cons]
      | Continue =>
        have ih := dispatchPipeline_eq_take e rest
          (fun m hm => hok m (List.mem_cons_of_mem _ hm))
        simp [dispatchPipeline, h, ih, stopsOn, List.findIdx_cons]

/-- C1: for every event, if a pipeline is registered under the event's
`service_id` and every middleware of it returns an `Ok` verdict on the
event, the bus invokes `on_event` in declared list order and stops at the
first `Stop` verdict: the invoked middlewares are exactly the prefix of the
pipeline up to and including the first one returning `Stop` (so none
positioned after the first `Stop` is invoked); if no pipeline is
registered, the event is dropped (nothing is invoked). -/
theorem bus_dispatch_pipeline_order (sm : ServiceId → Option (List MW))
    (e : Event) :
    (∀ pipeline, sm e.service_id = some pipeline →
      (∀ mw ∈ pipeline, (mw.on_event e).isOk = true) →
      busDispatchEvent sm e =
        ((pipeline.map MW.ident).take (pipeline.findIdx (stopsOn e) + 1),
          Except.ok ())) ∧
    (sm e.service_id = none → busDispatchEvent sm e = ([], Except.ok ())) := by
  constructor
  · intro pipeline hp hok
    unfold busDispatchEvent
    rw [hp]
    exact dispatchPipeline_eq_take e pipeline hok
  · intro hn
    unfold busDispatchEvent
    rw [hn]

/-- The `[Continue, Stop, Continue]` pipeline of the order claim, with
`Arc` identities `10`, `11`, `12`. -/
def c1Pipeline : List MW :=
  [⟨10, fun _ => Except.ok Verdict.Continue⟩,
   ⟨11, fun _ => Except.ok Verdict.Stop⟩,
   ⟨12, fun _ => Except.ok Verdict.Continue⟩]

/-- Pipeline registration used by the order witness. -/
def c1SM : ServiceId → Option (List MW) :=
  fun sid => if sid = ⟨"svc"⟩ then some c1Pipeline else none

/-- Witness for `bus_dispatch_pipeline_order`: on the three-middleware
pipeline `[Continue, Stop, Continue]` exactly the first two run, in order;
an event from an unregistered service invokes nothing. -/
theorem bus_dispatch_pipeline_order_witness :
    busDispatchEvent c1SM ⟨⟨"svc"⟩, EventKind.UserListUpdate []⟩ =
      ([10, 11], Except.ok ()) ∧
    busDispatchEvent c1SM ⟨⟨"ghost"⟩, EventKind.UserListUpdate []⟩ =
      ([], Except.ok ()) := by
  constructor
  · have h := (bus_dispatch_pipeline_order c1SM
      ⟨⟨"svc"⟩, EventKind.UserListUpdate []⟩).1 c1Pipeline rfl
      (by
        intro mw hm
        simp only [c1Pipeline, List.mem_cons, List.not_mem_nil, or_false] at hm
        rcases hm with rfl | rfl | rfl <;> rfl)
    rw [h]; rfl
  · exact (bus_dispatch_pipeline_order c1SM
      ⟨⟨"ghost"⟩, EventKind.UserListUpdate []⟩).2 rfl

/-- The erroring middleware of the error-propagation claim. -/
def c2ErrMW : MW := ⟨7, fun _ => Except.error "boom"⟩

/-- The never-reached successor middleware of the error-propagation claim. -/
def c2OkMW : MW := ⟨8, fun _ => Except.ok Verdict.Continue⟩

/-- Pipeline registration used by the error-propagation counterexample. -/
def c2SM : ServiceId → Option (List MW) :=
  fun sid => if sid = ⟨"svc"⟩ then some [c2ErrMW, c2OkMW] else none

/-- C2 counterexample: with the pipeline `[error, Continue]`, the error from
the first middleware stops the dispatch — middleware `8` is never invoked on
the event, contrary to "continues invoking the next middleware" — and the
bus loop terminates with the error: a second pending event is never
dispatched, contrary to "does not terminate the Bus loop". -/
theorem bus_pipeline_error_counterexample :
    busDispatchEvent c2SM ⟨⟨"svc"⟩, EventKind.UserListUpdate []⟩ =
      ([7], Except.error "boom") ∧
    busRunEvents c2SM
        [⟨⟨"svc"⟩, EventKind.UserListUpdate []⟩,
         ⟨⟨"svc"⟩, EventKind.UserListUpdate []⟩] =
      ([[7]], Except.error "boom") :=
  ⟨rfl, rfl⟩

/-- C2 amended: when a middleware's `on_event` returns an error during
pipeline dispatch, the `?` operator propagates the error out of `Bus::run`:
the middlewares positioned after the erroring one are not invoked on the
event, and the bus loop terminates with the error, dispatching no further
events.  (The error is still not treated as a `Stop` verdict: it is strictly
stronger, ending the loop itself.) -/
theorem bus_pipeline_error_propagates (sm : ServiceId → Option (List MW))
    (e : Event) (pre : List MW) (mwE : MW) (post : List MW) (err : String)
    (hp : sm e.service_id = some (pre ++ mwE :: post))
    (hpre : ∀ mw ∈ pre, mw.on_event e = Except.ok Verdict.Continue)
    (herr : mwE.on_event e = Except.error err) :
    busDispatchEvent sm e = ((pre ++ [mwE]).map MW.ident, Except.error err) ∧
    ∀ rest, busRunEvents sm (e :: rest) =
      ([(pre ++ [mwE]).map MW.ident], Except.error err) := by
  have hdisp : ∀ pre : List MW,
      (∀ mw ∈ pre, mw.on_event e = Except.ok Verdict.Continue) →
      dispatchPipeline e (pre ++ mwE :: post) =
        ((pre ++ [mwE]).map MW.ident, Except.error err) := by
    intro pre
    induction pre with
    | nil => intro _; simp [dispatchPipeline, herr]
    | cons a pre ih =>
      intro hpre
      have ha := hpre a (List.mem_cons_self _ _)
      have ih' := ih (fun m hm => hpre m (List.mem_cons_of_mem _ hm))
      simp [dispatchPipeline, ha, ih']
  have hbus : busDispatchEvent sm e =
      ((pre ++ [mwE]).map MW.ident, Except.error err) := by
    unfold busDispatchEvent
    rw [hp]
    exact hdisp pre hpre
  refine ⟨hbus, fun rest => ?_⟩
  unfold busRunEvents
  rw [hbus]

/-- Witness for `bus_pipeline_error_propagates` at the concrete
`[error, Continue]` pipeline: only middleware `7` runs and the loop returns
the error. -/
theorem bus_pipeline_error_propagates_witness :
    busDispatchEvent c2SM ⟨⟨"svc"⟩, EventKind.UserListUpdate []⟩ =
      ([7], Except.error "boom") ∧
    busRunEvents c2SM [⟨⟨"svc"⟩, EventKind.UserListUpdate []⟩] =
      ([[7]], Except.error "boom") := by
  have h := bus_pipeline_error_propagates c2SM
    ⟨⟨"svc"⟩, EventKind.UserListUpdate []⟩ [] c2ErrMW [c2OkMW] "boom" rfl
    (by intro mw hm; simp at hm) rfl
  exact ⟨h.1, h.2 []⟩

/-- C3: evaluation of the supervision step at the failing input.  A service
that has been running for 31 s (> 30 s) with `attempt_count = 2` exits
without cancellation.  The source resets the backoff (its internal attempt
becomes `0`, then `1` after `next_delay`), and stores `0` in
`attempt_counters` (line 201) — but line 210 computes
`new_attempt = attempt_count + 1` from the local read *before* the reset,
so the counter ends at `3`, not at the `0 + 1 = 1` that the reset-then-
increment described by the specification would produce.  The `insert(0)` is
a dead store. -/
theorem supervise_recovery_keeps_stale_counter :
    superviseServiceExit ⟨2, 5⟩ 31 false false =
      ⟨⟨3, 1⟩, true⟩ := rfl

/-- C8: when the service exit is handled while cancellation is not signaled
(`cancelledAtExit = false`) and cancellation arrives during the backoff
sleep, the bus does not restart the service, the supervision counters are
exactly those of the uncancelled path (in particular `attempt_count` was
incremented exactly once, with no extra increment on the cycle). -/
theorem cancel_during_backoff_no_restart (st : SupervisionState)
    (elapsedSecs : Nat) :
    (superviseServiceExit st elapsedSecs false true).restarted = false ∧
    (superviseServiceExit st elapsedSecs false true).state.attemptCount =
      st.attemptCount + 1 ∧
    (superviseServiceExit st elapsedSecs false true).state =
      (superviseServiceExit st elapsedSecs false false).state := by
  by_cases h : (decide (30 < elapsedSecs) && decide (0 < st.attemptCount)) = true <;>
    simp [superviseServiceExit, h]

/-- C4: the backoff delay formula and its bounds.  The `attempt` field of
`ExponentialBackoff` is zero-based (it is incremented after each
`next_delay`), so `multiplier ^ attempt` is the specification's
`multiplier^(attempt-1)` for the one-based attempt number.  For a valid
configuration (durations and factors nonnegative) and any jitter sample in
`[-jitter_factor, jitter_factor]`: the returned delay equals the base
capped at `max_delay`, multiplied by `1 + sample`, clamped below at `0`;
the base prior to jitter is at most `max_delay`; and the delay lies in
`[0, max_delay * (1 + jitter_factor)]`. -/
theorem backoff_next_delay_bounds (b : ExponentialBackoff) (jitterSample : ℚ)
    (hinit : 0 ≤ b.config.initial_delay) (hmax : 0 ≤ b.config.max_delay)
    (hmul : 0 ≤ b.config.multiplier) (hjf : 0 ≤ b.config.jitter_factor)
    (hs1 : -b.config.jitter_factor ≤ jitterSample)
    (hs2 : jitterSample ≤ b.config.jitter_factor) :
    (b.next_delay jitterSample).1 =
      max (min (b.config.initial_delay * b.config.multiplier ^ b.attempt)
            b.config.max_delay * (1 + jitterSample)) 0 ∧
    min (b.config.initial_delay * b.config.multiplier ^ b.attempt)
        b.config.max_delay ≤ b.config.max_delay ∧
    0 ≤ (b.next_delay jitterSample).1 ∧
    (b.next_delay jitterSample).1 ≤
      b.config.max_delay * (1 + b.config.jitter_factor) := by
  refine ⟨rfl, min_le_right _ _, le_max_right _ _, ?_⟩
  show max (min (b.config.initial_delay * b.config.multiplier ^ b.attempt)
      b.config.max_delay * (1 + jitterSample)) 0 ≤
    b.config.max_delay * (1 + b.config.jitter_factor)
  have hcapped0 : 0 ≤ min (b.config.initial_delay * b.config.multiplier ^ b.attempt)
      b.config.max_delay :=
    le_min (mul_nonneg hinit (pow_nonneg hmul _)) hmax
  have hcapped : min (b.config.initial_delay * b.config.multiplier ^ b.attempt)
      b.config.max_delay ≤ b.config.max_delay := min_le_right _ _
  have hjs : (1 : ℚ) + jitterSample ≤ 1 + b.config.jitter_factor := by linarith
  apply max_le
  · calc min (b.config.initial_delay * b.config.multiplier ^ b.attempt)
          b.config.max_delay * (1 + jitterSample)
        ≤ min (b.config.initial_delay * b.config.multiplier ^ b.attempt)
          b.config.max_delay * (1 + b.config.jitter_factor) :=
          mul_le_mul_of_nonneg_left hjs hcapped0
      _ ≤ b.config.max_delay * (1 + b.config.jitter_factor) :=
          mul_le_mul_of_nonneg_right hcapped (by linarith)
  · exact mul_nonneg hmax (by linarith)

/-- Witness for `backoff_next_delay_bounds` at the default configuration
`(1s, 60s, 2.0, 0.1)`, fourth attempt, jitter sample `+0.1`. -/
theorem backoff_next_delay_bounds_witness :
    0 ≤ (ExponentialBackoff.next_delay ⟨ReconnectionConfig.default, 3⟩ (1/10)).1 ∧
    (ExponentialBackoff.next_delay ⟨ReconnectionConfig.default, 3⟩ (1/10)).1 ≤
      60 * (1 + 1/10) := by
  have h := backoff_next_delay_bounds ⟨ReconnectionConfig.default, 3⟩ (1/10)
    (by norm_num [ReconnectionConfig.default])
    (by norm_num [ReconnectionConfig.default])
    (by norm_num [ReconnectionConfig.default])
    (by norm_num [ReconnectionConfig.default])
    (by norm_num [ReconnectionConfig.default])
    (by norm_num [ReconnectionConfig.default])
  exact ⟨h.2.2.1, h.2.2.2⟩

/-- The presence-session state invariant of the specification:
`is_session_active ⇔ active ≠ ∅`, `active ⊆ all_participants`, and
`live_message_id.is_some() ⇒ is_session_active`. -/
def SessionInvariant (s : SessionState) : Prop :=
  (s.is_session_active = true ↔ s.active_participants ≠ ∅) ∧
  s.active_participants ⊆ s.all_participants ∧
  (s.live_message_id.isSome = true → s.is_session_active = true)

/-- C5: every event-handling step of the presence-session middleware —
`handle_user_list_change`, covering all four `(was_active, now_active)`
branches, for any awaited send reply — preserves the session invariant. -/
theorem session_step_preserves_invariant (state : SessionState)
    (current_active : Finset String) (destination : DestinationConfig)
    (messages : MessageTemplates) (now : Nat) (sendResult : Option String)
    (hinv : SessionInvariant state) :
    SessionInvariant
      (handle_user_list_change state current_active destination messages now
        sendResult).1 := by
  obtain ⟨h1, h2, h3⟩ := hinv
  by_cases hcur : current_active = ∅
  · have hdec : decide (current_active ≠ ∅) = false :=
      decide_eq_false (not_not_intro hcur)
    cases hsa : state.is_session_active
    · -- (false, false): no-op
      simp only [handle_user_list_change, hsa, hdec]
      exact ⟨h1, h2, h3⟩
    · -- (true, false): session end, full reset
      simp only [handle_user_list_change, hsa, hdec, handle_session_end]
      refine ⟨by simp [SessionState.new], by simp [SessionState.new], ?_⟩
      simp [SessionState.new]
  · have hdec : decide (current_active ≠ ∅) = true := decide_eq_true hcur
    cases hsa : state.is_session_active
    · -- (false, true): session start
      simp only [handle_user_list_change, hsa, hdec, handle_session_start]
      cases sendResult <;>
        exact ⟨by simpa using hcur, Finset.Subset.refl _, fun _ => rfl⟩
    · -- (true, true): session update
      simp only [handle_user_list_change, hsa, hdec, handle_session_update]
      cases hlive : state.live_message_id with
      | some message_id =>
        exact ⟨by simpa using hcur, Finset.subset_union_right, fun _ => rfl⟩
      | none =>
        cases sendResult <;>
          exact ⟨by simpa using hcur, Finset.subset_union_right, fun _ => rfl⟩

/-- Witness for `session_step_preserves_invariant`: the empty initial state
satisfies the invariant, and so does the state after a first
`UserListUpdate` activating one participant whose initial send succeeded. -/
theorem session_step_preserves_invariant_witness :
    SessionInvariant
      (handle_user_list_change SessionState.new {"Alice"}
        ⟨⟨"matrix"⟩, "!room"⟩ ⟨"start", "ended", "edited"⟩ 0 (some "m1")).1 := by
  apply session_step_preserves_invariant
  refine ⟨by simp [SessionState.new], by simp [SessionState.new], ?_⟩
  simp [SessionState.new]

/-- Membership in the started-middleware list after processing one
pipeline: exactly the instances already started plus those of the
pipeline. -/
theorem mem_startPipeline (x : Nat) (pipeline : List Nat) :
    ∀ started : List Nat,
      (x ∈ startPipeline started pipeline ↔ x ∈ started ∨ x ∈ pipeline) := by
  induction pipeline with
  | nil => intro started; simp [startPipeline]
  | cons a pipeline ih =>
    intro started
    simp only [startPipeline, List.foldl_cons] at *
    rw [ih]
    by_cases ha : a ∈ started
    · simp only [ha, if_true, List.mem_cons]
      constructor
      · rintro (h | h)
        · exact Or.inl h
        · exact Or.inr (Or.inr h)
      · rintro (h | h | h)
        · exact Or.inl h
        · exact Or.inl (h ▸ ha)
        · exact Or.inr h
    · simp only [ha, if_false, List.mem_append, List.mem_cons,
        List.not_mem_nil, or_false]
      exact or_assoc

/-- The started-middleware list stays duplicate-free as a pipeline is
processed. -/
theorem nodup_startPipeline (pipeline : List Nat) :
    ∀ started : List Nat, started.Nodup → (startPipeline started pipeline).Nodup := by
  induction pipeline with
  | nil => intro started h; simpa [startPipeline] using h
  | cons a pipeline ih =>
    intro started h
    simp only [startPipeline, List.foldl_cons]
    by_cases ha : a ∈ started
    · simpa [startPipeline, ha] using ih started h
    · have : (started ++ [a]).Nodup := by simp [List.nodup_append, h, ha]
      simpa [startPipeline, ha] using ih (started ++ [a]) this

/-- C6: walking all pipelines, the bus starts the `run` task of every
distinct middleware instance exactly once (`Arc::ptr_eq` deduplication,
identities modelled by `Nat`): an instance referenced by at least one
pipeline occurs exactly once in the spawn list, and an unreferenced one not
at all — even when the same instance appears in several pipelines. -/
theorem middleware_run_started_once (pipelines : List (List Nat)) (mw : Nat) :
    (startMiddlewares pipelines).count mw =
      if mw ∈ pipelines.flatten then 1 else 0 := by
  have key : ∀ acc : List Nat, acc.Nodup →
      ((pipelines.foldl startPipeline acc).Nodup ∧
        (mw ∈ pipelines.foldl startPipeline acc ↔
          mw ∈ acc ∨ mw ∈ pipelines.flatten)) := by
    induction pipelines with
    | nil => intro acc h; simp [h]
    | cons p pipelines ih =>
      intro acc h
      simp only [List.foldl_cons, List.flatten_cons]
      obtain ⟨hn, hm⟩ := ih (startPipeline acc p) (nodup_startPipeline p acc h)
      refine ⟨hn, ?_⟩
      rw [hm, mem_startPipeline]
      simp [List.mem_append, or_assoc]
  obtain ⟨hn, hm⟩ := key [] (List.nodup_nil)
  simp only [List.not_mem_nil, false_or] at hm
  unfold startMiddlewares
  by_cases h : mw ∈ pipelines.flatten
  · rw [if_pos h]
    exact List.count_eq_one_of_mem hn (hm.mpr h)
  · rw [if_neg h]
    exact List.count_eq_zero_of_not_mem (fun hc => h (hm.mp hc))

/-- C7: `ChatRelay::on_event` always returns `Continue`, and it emits a
`SendRoomMessage` to the configured destination exactly when the event is a
`RoomMessage` from the configured source service, matching the configured
source room when one is set, with `is_self = false`; the emitted body is
`"[prefix_tag] display_or_id: body"` (display name falling back to the
sender id), supplied identically as plain and markdown text with no reply
handle — as captured by `chatRelaySpecCommands`, which emits nothing in
every other case (in particular when `is_self = true`). -/
theorem chatRelay_tap_and_forward (cfg : ChatRelayConfig) (event : Event) :
    chatRelayOnEvent cfg event = (Verdict.Continue, chatRelaySpecCommands cfg event) := by
  obtain ⟨sid, kind⟩ := event
  cases kind with
  | RoomMessage room_id body is_local_user sender_id sender_display_name is_self =>
    by_cases hsvc : sid.id = cfg.source_service_id
    · cases hroom : roomMismatch cfg.source_room_id room_id
      · cases is_self <;>
          simp [chatRelayOnEvent, chatRelaySpecCommands, hsvc, hroom]
      · simp [chatRelayOnEvent, chatRelaySpecCommands, hsvc, hroom]
    · simp [chatRelayOnEvent, chatRelaySpecCommands, hsvc]
  | DirectMessage user_id body is_local_user sender_id sdn is_self =>
    by_cases hsvc : sid.id = cfg.source_service_id <;>
      simp [chatRelayOnEvent, chatRelaySpecCommands, hsvc]
  | UserListUpdate users =>
    by_cases hsvc : sid.id = cfg.source_service_id <;>
      simp [chatRelayOnEvent, chatRelaySpecCommands, hsvc]
  | ServiceDisconnected reason attempt =>
    by_cases hsvc : sid.id = cfg.source_service_id <;>
      simp [chatRelayOnEvent, chatRelaySpecCommands, hsvc]
  | ServiceReconnecting attempt delay_secs =>
    by_cases hsvc : sid.id = cfg.source_service_id <;>
      simp [chatRelayOnEvent, chatRelaySpecCommands, hsvc]
  | ServiceReconnected downtime_secs total_attempts =>
    by_cases hsvc : sid.id = cfg.source_service_id <;>
      simp [chatRelayOnEvent, chatRelaySpecCommands, hsvc]

/-- Predicate picking out `GenerateInviteToken` commands. -/
def isGenerateInviteToken : Command → Bool
  | Command.GenerateInviteToken _ _ _ _ => true
  | _ => false

/-- C9: on a `DirectMessage` whose trimmed body equals the configured invite
command and whose `is_local_user` is false, the invite middleware issues
exactly one command — a `SendDirectMessage` back to the sender with the
rejection body — issues no `GenerateInviteToken`, and returns `Continue`. -/
theorem invite_rejects_nonlocal (command_string : String)
    (uses_allowed expiry : Option Nat) (svc : ServiceId)
    (user_id body sender_id : String) (sdn : Option String) (sf : Bool)
    (htrim : strTrim body = command_string) :
    inviteOnEvent command_string uses_allowed expiry
        ⟨svc, EventKind.DirectMessage user_id body false sender_id sdn sf⟩ =
      (Verdict.Continue,
        [Command.SendDirectMessage svc user_id inviteRejectionBody false]) ∧
    ∀ c ∈ (inviteOnEvent command_string uses_allowed expiry
        ⟨svc, EventKind.DirectMessage user_id body false sender_id sdn sf⟩).2,
      isGenerateInviteToken c = false := by
  have h : inviteOnEvent command_string uses_allowed expiry
      ⟨svc, EventKind.DirectMessage user_id body false sender_id sdn sf⟩ =
      (Verdict.Continue,
        [Command.SendDirectMessage svc user_id inviteRejectionBody false]) := by
    simp [inviteOnEvent, htrim]
  refine ⟨h, ?_⟩
  rw [h]
  intro c hc
  simp only [List.mem_singleton] at hc
  subst hc
  rfl

/-- Witness for `invite_rejects_nonlocal`: the command `"!invite"` sent by a
non-local user (body carries surrounding whitespace removed by `trim`)
yields the rejection direct message and no token generation. -/
theorem invite_rejects_nonlocal_witness :
    strTrim " !invite " = "!invite" ∧
    inviteOnEvent "!invite" none none
        ⟨⟨"matrix"⟩, EventKind.DirectMessage "@u:other" " !invite " false
          "@u:other" none false⟩ =
      (Verdict.Continue,
        [Command.SendDirectMessage ⟨"matrix"⟩ "@u:other" inviteRejectionBody
          false]) := by
  refine ⟨by decide, ?_⟩
  exact (invite_rejects_nonlocal "!invite" none none ⟨"matrix"⟩ "@u:other"
    " !invite " "@u:other" none false (by decide)).1

/-- C10: the configured `source_room_id` has no observable effect on the
attendance-relay middleware: two configurations differing only in
`source_room_id` produce, on every `UserListUpdate` event, the same verdict,
the same state transition and the same commands (the filter block of
`on_event` is a no-op in the source). -/
theorem attendance_source_room_no_effect (c1 c2 : AttendanceRelayConfig)
    (hsrc : c1.source_service_id = c2.source_service_id)
    (hds : c1.dest_service_id = c2.dest_service_id)
    (hdr : c1.dest_room_id = c2.dest_room_id)
    (hm1 : c1.session_start_message = c2.session_start_message)
    (hm2 : c1.session_end_message = c2.session_end_message)
    (hm3 : c1.session_ended_edit_message = c2.session_ended_edit_message)
    (state : SessionState) (svc : ServiceId) (users : List User)
    (now : Nat) (sendResult : Option String) :
    attendanceRelayOnEvent c1 state ⟨svc, EventKind.UserListUpdate users⟩
        now sendResult =
      attendanceRelayOnEvent c2 state ⟨svc, EventKind.UserListUpdate users⟩
        now sendResult := by
  obtain ⟨s1, r1, d1, dr1, m11, m21, m31⟩ := c1
  obtain ⟨s2, r2, d2, dr2, m12, m22, m32⟩ := c2
  simp only at hsrc hds hdr hm1 hm2 hm3
  subst hsrc; subst hds; subst hdr; subst hm1; subst hm2; subst hm3
  rfl

/-- Witness for `attendance_source_room_no_effect`: two configurations, one
without and one with a source-room filter, behave identically on a
`UserListUpdate` carrying one active user. -/
theorem attendance_source_room_no_effect_witness :
    attendanceRelayOnEvent
        ⟨"mumble", none, "matrix", "!room", "started", "ended", "edited"⟩
        SessionState.new
        ⟨⟨"mumble"⟩, EventKind.UserListUpdate
          [⟨"1", "alice", "Alice", true, false⟩]⟩ 0 (some "m1") =
      attendanceRelayOnEvent
        ⟨"mumble", some "lobby", "matrix", "!room", "started", "ended", "edited"⟩
        SessionState.new
        ⟨⟨"mumble"⟩, EventKind.UserListUpdate
          [⟨"1", "alice", "Alice", true, false⟩]⟩ 0 (some "m1") :=
  attendance_source_room_no_effect _ _ rfl rfl rfl rfl rfl rfl _ _ _ _ _

end KelvinBot
